import Mathlib

/- A shallow embedding of the motion-synthesis and arbitration core of the
SFM toy controller (src/Toy_Controller.py and src/config.py), with theorems
checking the specification's claims about the pattern library, the piston,
vibe, climax and idle workers, the pose smoothing step, configuration
persistence, and the post-climax cooldown flag.

Conventions.  Python floats are modelled as rationals, except in the pattern
library and the idle sinusoid where math.sin and math.pi force real numbers.
Python's int(x) is pyInt (truncation toward zero), x % 1.0 is pyFract, and
round(x, 2) is round2 (round half to even, as Python does).  Each worker's
endless loop body becomes a step function from the polled shared state and
the worker's local variables to the updated locals and the list of actuator
commands issued during that pass; a worker pass that only sleeps issues no
command. -/

/-- Device capability flags.  In the source a device's capability list holds
the string piston when the device has linear actuators and vibe when it has
vibration actuators (Toy_Controller.py, rescan_and_update_ui). -/
structure Caps where
  piston : Bool
  vibe : Bool
deriving DecidableEq

/-- The process-wide state every worker polls each tick: the mode signals and
animation state written by the game listener, the signal assignments and
device registry, and the UI toggles (wireless mode, idle motion switch,
slider drag flag, idle interval). -/
structure Shared where
  pistonMode : Nat
  vibeMode : Nat
  progress : ℚ
  animationHash : ℤ
  pistonAssign : Option Nat
  vibeAssign : Option Nat
  devices : Nat → Option Caps
  wireless : Bool
  idleEnabled : Bool
  sliderDragging : Bool
  idleInterval : ℚ

/-- The runtime-mutable configuration values of config.py.  The per-mode
dicts are modelled as partial functions, mirroring the Python dicts that the
workers read with .get; vaps abbreviates vibe-as-piston.  poseRanges holds
the mutable min_pos/max_pos fields of POSE_PROFILES, keyed by animation
hash (none for a hash that is not in the table). -/
@[ext]
structure Cfg where
  pistonPosMin : ℚ
  pistonPosMax : ℚ
  pistonSpeed : Nat → Option ℚ
  vapsPosMin : ℚ
  vapsPosMax : ℚ
  vibeStrength : Nat → Option ℚ
  vibeMinStrength : Nat → Option ℚ
  vapsSpeed : Nat → Option ℚ
  poseRanges : ℤ → Option (ℚ × ℚ)

/-- The key set of config.POSE_PROFILES. -/
def POSE_HASHES : List ℤ :=
  [1201047697, 1832166380, 7717404, 505962836, 2011001274, 344055696,
   1945541277, 1272021522, 126556443, 81106989, 1127557836, 1067368937,
   37429125, 652955773, 709841502]

/-- config.CLIMAX_HASHES. -/
def CLIMAX_HASHES : List ℤ :=
  [1514068739, 551798253, 1352943776, 215434987, 76164332, 231319108,
   2060359382, 48554725, 1584403080, 248983229, 2029961234]

/-- Python int() applied to a nonnegative-or-negative rational: truncation
toward zero. -/
def pyInt (q : ℚ) : ℤ := if q < 0 then -(⌊-q⌋) else ⌊q⌋

/-- Python x % 1.0 for a float x: the fractional part, always in [0, 1). -/
def pyFract (x : ℚ) : ℚ := x - ⌊x⌋

/-- Round a rational to the nearest integer, ties to the even integer, as
Python's round does. -/
def rhe (x : ℚ) : ℤ :=
  let f := ⌊x⌋
  let r := x - (f : ℚ)
  if r < 1/2 then f
  else if 1/2 < r then f + 1
  else if Even f then f else f + 1

/-- Python round(x, 2): round to two decimal places, ties to even. -/
def round2 (x : ℚ) : ℚ := ((rhe (100 * x) : ℤ) : ℚ) / 100

/-- A rational expressible with two decimal places, as every strength the
configuration sliders can produce is (they round to two places). -/
def TwoDec (q : ℚ) : Prop := ∃ z : ℤ, q = (z : ℚ) / 100

/-- Capability list of a registry entry; a missing device reads as the empty
capability list, as dict.get with default does in the source. -/
def capsOf (s : Shared) (i : Nat) : Caps := (s.devices i).getD ⟨false, false⟩

/-- The linear-actuator resolution shared verbatim by idle_worker and
climax_worker: prefer the piston-bound device when it is piston capable,
else fall back to the vibe-bound device when that one is piston capable. -/
def resolveActuator (s : Shared) : Option Nat :=
  match s.pistonAssign with
  | some i =>
    if (capsOf s i).piston then some i
    else match s.vibeAssign with
      | some j => if (capsOf s j).piston then some j else none
      | none => none
  | none =>
    match s.vibeAssign with
    | some j => if (capsOf s j).piston then some j else none
    | none => none

/-- A command to a linear actuator: absolute position and duration in
milliseconds. -/
structure LinearCmd where
  position : ℚ
  durationMs : ℤ
deriving DecidableEq

/-- Local variables of piston_worker: is_homed and target_position. -/
structure PistonSt where
  isHomed : Bool
  target : ℚ
deriving DecidableEq

/-- piston_worker's target flip: to min when the target sits at max,
otherwise to max. -/
def pistonFlip (cfg : Cfg) (t : ℚ) : ℚ :=
  if t = cfg.pistonPosMax then cfg.pistonPosMin else cfg.pistonPosMax

/-- piston_worker's local state at function entry. -/
def pistonInit (cfg : Cfg) : PistonSt := ⟨true, cfg.pistonPosMax⟩

/-- One pass of piston_worker's loop body (Toy_Controller.py lines 247-305):
stand down during pose or climax animations, when nothing piston capable is
bound to the piston signal, or when the piston-bound device is also the
vibe-bound device; otherwise cycle while the mode is positive and issue one
home command on the first pass after the mode returns to zero. -/
def pistonStep (cfg : Cfg) (s : Shared) (st : PistonSt) : PistonSt × Option LinearCmd :=
  if s.animationHash ∈ POSE_HASHES then (st, none)
  else if s.animationHash ∈ CLIMAX_HASHES then (st, none)
  else
    match s.pistonAssign with
    | none => (st, none)
    | some deviceIndex =>
      if (capsOf s deviceIndex).piston = false then (st, none)
      else if s.vibeAssign = some deviceIndex then (st, none)
      else if 0 < s.pistonMode then
        (⟨false, pistonFlip cfg st.target⟩,
         some ⟨st.target, pyInt (((cfg.pistonSpeed s.pistonMode).getD 1) * 1000)⟩)
      else if st.isHomed = false then
        (⟨true, cfg.pistonPosMax⟩, some ⟨1/2, 700⟩)
      else (st, none)

/-- Iterate a worker's step function, collecting the commands of each pass in
order. -/
def runSteps {σ α : Type} (f : σ → σ × Option α) : Nat → σ → σ × List α
  | 0, st => (st, [])
  | n + 1, st =>
    let r := f st
    let r2 := runSteps f n r.1
    (r2.1, r.2.toList ++ r2.2)

/-- The target after n flips. -/
def flipIter (cfg : Cfg) (t : ℚ) : Nat → ℚ
  | 0 => t
  | n + 1 => flipIter cfg (pistonFlip cfg t) n

/- ----- the pattern library (config.py) ----- -/

noncomputable def pattern_1 (progress : ℝ) : ℝ :=
  if progress < 0.5 then 1.0 - progress / 0.5
  else if progress < 0.75 then ((progress - 0.5) / 0.25) * 0.3
  else 0.3 + ((progress - 0.75) / 0.25) * 0.7

noncomputable def pattern_1_inverted (progress : ℝ) : ℝ := 1.0 - pattern_1 progress

noncomputable def pattern_2 (progress : ℝ) : ℝ :=
  (Real.sin (progress * 2 * Real.pi - Real.pi / 2) + 1) / 2

noncomputable def pattern_3 (progress : ℝ) : ℝ :=
  if progress < 0.8 then progress / 0.8
  else 1.0 - ((progress - 0.8) / 0.2)

noncomputable def pattern_4 (progress : ℝ) : ℝ :=
  if progress < 0.7 then progress / 0.7
  else 1.0 - ((progress - 0.7) / 0.3)

noncomputable def pattern_4_inverted (progress : ℝ) : ℝ := 1.0 - pattern_4 progress

noncomputable def pattern_5 (progress : ℝ) : ℝ :=
  if progress < 0.6 then progress / 0.6
  else 1.0 - ((progress - 0.6) / 0.4)

def easeInQuad (t : ℝ) : ℝ := t * t

def easeOutQuad (t : ℝ) : ℝ := 1.0 - (1.0 - t) * (1.0 - t)

noncomputable def pattern_6 (progress : ℝ) : ℝ :=
  if progress < 0.4 then 1.0 - easeInQuad (progress / 0.4)
  else easeOutQuad ((progress - 0.4) / (1.0 - 0.4))

/-- pattern_constant_freq computes its own phase from wall-clock time
(time.monotonic(), here the explicit parameter t) divided by its fixed cycle
duration, ignoring the supplied progress. -/
noncomputable def pattern_constant_freq (t _progress : ℝ) : ℝ :=
  pattern_5 (Int.fract (t / 0.65))

/- ----- vibe_worker (Toy_Controller.py lines 307-431) ----- -/

/-- A vibe_worker command: an intensity level for a vibration actuator or a
position/duration pair for a linear actuator (the piston-emulated branch). -/
inductive VCmd
  | vibrate (level : ℚ)
  | linear (position : ℚ) (durationMs : ℤ)
deriving DecidableEq

/-- Local variables of vibe_worker: is_homed, target_position (None until
first assigned; it is always assigned before first use, so it is modelled as
a plain rational starting at 0) and wave_state_is_high. -/
structure VibeSt where
  isHomed : Bool
  target : ℚ
  waveHigh : Bool
deriving DecidableEq

/-- vibe_worker's local state at function entry. -/
def vibeInit : VibeSt := ⟨true, 0, true⟩

/-- One strength of the linked-mode ramp: the source commands
round(start + (end - start) * (i / (TOTAL_STEPS - 1)), 2) at loop index i,
with TOTAL_STEPS = 10. -/
def rampVal (startStrength endStrength : ℚ) (i : Nat) : ℚ :=
  round2 (startStrength + (endStrength - startStrength) * ((i : ℚ) / 9))

/-- The full command/sleep trace of one linked-mode ramp pass: ten ramp
commands each followed by a sleep of one tenth of the piston interval, then
one unrounded command at the end strength with no sleep.  Each pair is the
commanded VCmd and the sleep that follows it, in seconds. -/
def linkedRampOut (pistonInterval startStrength endStrength : ℚ) : List (VCmd × ℚ) :=
  ((List.range 10).map
    (fun i => (VCmd.vibrate (rampVal startStrength endStrength i), pistonInterval / 10)))
    ++ [(VCmd.vibrate endStrength, 0)]

/-- One pass of vibe_worker's loop body.  The sub-mode is picked from the
binding topology: linked when the piston signal points at the vibe device
and it can vibrate, vibe-only when it can vibrate but is not co-bound, and
piston-emulated when it can only piston.  The second component of each
output pair is the sleep following that command, in seconds (only the
linked-mode ramp uses several commands per pass). -/
def vibeStep (cfg : Cfg) (s : Shared) (st : VibeSt) : VibeSt × List (VCmd × ℚ) :=
  match s.vibeAssign with
  | none => (st, [])
  | some vIdx =>
    match s.devices vIdx with
    | none => (st, [])
    | some caps =>
      if s.pistonAssign = some vIdx ∧ caps.vibe = true then
        let pistonInterval := (cfg.pistonSpeed s.pistonMode).getD 1
        let maxStrength := (cfg.vibeStrength s.vibeMode).getD 0
        let minStrength0 := (cfg.vibeMinStrength s.vibeMode).getD 0
        let minStrength := if minStrength0 > maxStrength then maxStrength else minStrength0
        if 0 < s.pistonMode ∧ 0 < s.vibeMode then
          let startStrength := if st.waveHigh then minStrength else maxStrength
          let endStrength := if st.waveHigh then maxStrength else minStrength
          ({ st with isHomed := true, waveHigh := !st.waveHigh },
           linkedRampOut pistonInterval startStrength endStrength)
        else if s.pistonMode = 0 ∧ 0 < s.vibeMode then
          ({ st with isHomed := true }, [(VCmd.vibrate maxStrength, 1/20)])
        else
          ({ st with isHomed := true }, [(VCmd.vibrate 0, 1/20)])
      else if caps.vibe = true then
        ({ st with isHomed := true },
         [(VCmd.vibrate ((cfg.vibeStrength s.vibeMode).getD 0), 1/20)])
      else if caps.piston = true ∧ caps.vibe = false then
        if s.animationHash ∈ POSE_HASHES then (st, [])
        else if 0 < s.vibeMode then
          let t := if st.isHomed then cfg.vapsPosMax else st.target
          let interval := (cfg.vapsSpeed s.vibeMode).getD 1
          (⟨false, if t = cfg.vapsPosMax then cfg.vapsPosMin else cfg.vapsPosMax, st.waveHigh⟩,
           [(VCmd.linear t (pyInt (interval * 1000)), interval)])
        else if st.isHomed = false then
          ({ st with isHomed := true }, [(VCmd.linear (1/2) 700, 0)])
        else (st, [])
      else (st, [])

/- ----- climax_worker (Toy_Controller.py lines 433-516) ----- -/

/-- The fixed choreographed climax sequence: six position/duration pairs. -/
def climaxSeqMain : List LinearCmd :=
  [⟨1/10, 200⟩, ⟨35/100, 100⟩, ⟨1/10, 250⟩, ⟨55/100, 280⟩, ⟨7/10, 150⟩, ⟨1/10, 200⟩]

/-- The wired-mode reverberation: each (amplitude, duration) pulse of the
pattern is commanded and then followed by a return to 0.0 of the same
duration. -/
def climaxReverb : List LinearCmd :=
  [⟨2/10, 100⟩, ⟨0, 100⟩, ⟨15/100, 110⟩, ⟨0, 110⟩, ⟨1/10, 120⟩, ⟨0, 120⟩,
   ⟨5/100, 140⟩, ⟨0, 140⟩]

/-- Everything a rising climax edge plays: the choreographed sequence, plus
the reverberation unless wireless mode is on. -/
def climaxSeq (wireless : Bool) : List LinearCmd :=
  climaxSeqMain ++ (if wireless then [] else climaxReverb)

/-- One pass of climax_worker's loop body.  The first Bool is the module
level is_post_climax_cooldown flag; the assignments to that name inside the
falling-edge branch of the source bind a function-local variable (the
function has no global declaration for it), so the module-level flag is
returned unchanged in every branch.  The second Bool is the worker's local
is_climax_active_last_frame, which is always overwritten with the current
membership test at the end of the pass. -/
def climaxTick (s : Shared) (g lastFrame : Bool) : Bool × Bool × List LinearCmd :=
  let isNow : Bool := decide (s.animationHash ∈ CLIMAX_HASHES)
  if isNow = true ∧ lastFrame = false then
    (g, true, if (resolveActuator s).isSome then climaxSeq s.wireless else [])
  else if isNow = false ∧ lastFrame = true ∧ (resolveActuator s).isSome = true then
    (g, false, [⟨1/2, 500⟩])
  else (g, isNow, [])

/-- The two writes the falling-edge branch makes to the (function-local) name
is_post_climax_cooldown during one pass: set to True before the slow return
home, back to False after the half-second sleep. -/
def climaxTickLocalWrites (s : Shared) (lastFrame : Bool) : List Bool :=
  if decide (s.animationHash ∈ CLIMAX_HASHES) = false ∧ lastFrame = true
     ∧ (resolveActuator s).isSome = true then [true, false] else []

/-- Iterate climax_worker over a list of polled shared states, threading the
module flag and the local last-frame flag and collecting each pass's command
emission. -/
def climaxRun : List Shared → Bool → Bool → Bool × Bool × List (List LinearCmd)
  | [], g, lastFrame => (g, lastFrame, [])
  | s :: rest, g, lastFrame =>
    let r := climaxTick s g lastFrame
    let r2 := climaxRun rest r.1 r.2.1
    (r2.1, r2.2.1, r.2.2 :: r2.2.2)

/- ----- PoseWorker smoothing step (Toy_Controller.py lines 569-573, 619-623) ----- -/

/-- The circular distance PoseWorker applies before blending: the raw
difference between the target progress and the displayed progress modulo
1.0, wrapped by +1 when below -0.5 and by -1 when above 0.5. -/
def poseCircularDistance (targetProgress displayProgress : ℚ) : ℚ :=
  let distance := targetProgress - pyFract displayProgress
  if distance < -(1/2) then distance + 1
  else if distance > 1/2 then distance - 1
  else distance

/-- One exponential smoothing step of PoseWorker: the displayed progress
moves by the circular distance times the smoothing factor. -/
def poseSmoothStep (targetProgress displayProgress factor : ℚ) : ℚ :=
  displayProgress + poseCircularDistance targetProgress displayProgress * factor

/-- Written from the specification's words, for comparison with the
code-derived poseCircularDistance: the applied signed distance is the target
minus the displayed progress mod 1, adjusted by +1 if it is below -0.5 and
by -1 if it is above 0.5. -/
def specShorterArcDistance (t d : ℚ) : ℚ :=
  let raw := t - pyFract d
  if raw < -(1/2) then raw + 1
  else if raw > 1/2 then raw - 1
  else raw

/- ----- idle_worker (Toy_Controller.py lines 166-245) ----- -/

/-- A command to a linear actuator with a real-valued position (the idle
sinusoid involves math.sin). -/
structure RCmd where
  position : ℝ
  durationMs : ℤ

/-- Local variables of idle_worker: was_idling and target_position. -/
structure IdleSt where
  wasIdling : Bool
  target : ℚ

/-- idle_worker's local state at function entry. -/
def idleInit : IdleSt := ⟨false, 1/2⟩

/-- One pass of idle_worker's loop body at wall-clock time t: suspended
while a slider drag is in progress; inactive (resetting was_idling) when the
feature is off, when a pose or climax animation is active, when either mode
signal is positive, or when no piston-capable actuator resolves.  Wireless
mode alternates between the piston range ends; otherwise the position is a
sinusoid of t mapped into the piston range, preceded by one 500 ms smoothing
command on the first active pass. -/
noncomputable def idleStep (cfg : Cfg) (s : Shared) (t : ℝ) (st : IdleSt) :
    IdleSt × List RCmd :=
  if s.sliderDragging = true then (st, [])
  else if s.idleEnabled = false then ({ st with wasIdling := false }, [])
  else if s.animationHash ∈ POSE_HASHES ∨ s.animationHash ∈ CLIMAX_HASHES
          ∨ 0 < s.pistonMode ∨ 0 < s.vibeMode then
    ({ st with wasIdling := false }, [])
  else if (resolveActuator s).isSome = false then ({ st with wasIdling := false }, [])
  else if s.wireless = true then
    let newTarget := if st.target = cfg.pistonPosMin then cfg.pistonPosMax else cfg.pistonPosMin
    ({ st with target := newTarget },
     [⟨(newTarget : ℝ), pyInt (s.idleInterval * 1000)⟩])
  else
    let speed : ℝ := if 0 < s.idleInterval then Real.pi / (s.idleInterval : ℝ) else 0
    let mapped : ℝ := (cfg.pistonPosMin : ℝ) +
      ((Real.sin (t * speed) + 1) / 2) * ((cfg.pistonPosMax : ℝ) - (cfg.pistonPosMin : ℝ))
    if st.wasIdling = false then
      ({ st with wasIdling := true }, [⟨mapped, 500⟩, ⟨mapped, 150⟩])
    else (st, [⟨mapped, 150⟩])

/- ----- configuration persistence (Toy_Controller.py lines 41-99) ----- -/

/-- The shape of the persisted JSON once parsed: every key may be absent.
A wholly absent per-mode dict reads as the empty dict, hence the constantly
none function; pose_ranges entries may each lack min or max. -/
structure LoadedData where
  pistonSpeed : Nat → Option ℚ
  pistonRangeMin : Option ℚ
  pistonRangeMax : Option ℚ
  vibeStrength : Nat → Option ℚ
  vibeMinStrength : Nat → Option ℚ
  vapsSpeed : Nat → Option ℚ
  vapsRangeMin : Option ℚ
  vapsRangeMax : Option ℚ
  poseRanges : ℤ → Option (Option ℚ × Option ℚ)

/-- save_config: the JSON record written from the current configuration;
every dict entry and both ends of every range are written. -/
def saveData (c : Cfg) : LoadedData where
  pistonSpeed := c.pistonSpeed
  pistonRangeMin := some c.pistonPosMin
  pistonRangeMax := some c.pistonPosMax
  vibeStrength := c.vibeStrength
  vibeMinStrength := c.vibeMinStrength
  vapsSpeed := c.vapsSpeed
  vapsRangeMin := some c.vapsPosMin
  vapsRangeMax := some c.vapsPosMax
  poseRanges := fun id => (c.poseRanges id).map (fun r => (some r.1, some r.2))

/-- load_config's fallback dict for piston_speed. -/
def defaultPistonSpeed (k : Nat) : Option ℚ :=
  if k = 1 then some (9/10) else if k = 2 then some (1/2)
  else if k = 3 then some (2/5) else none

/-- load_config's fallback dict for vibe_strength. -/
def defaultVibeStrength (k : Nat) : Option ℚ :=
  if k = 1 then some (1/2) else if k = 2 then some 1 else none

/-- load_config's fallback dict for vibe_min_strength (note: these differ
from the module's initial VIBE_MIN_STRENGTH_MAP values). -/
def defaultVibeMinStrength (k : Nat) : Option ℚ :=
  if k = 1 then some (1/10) else if k = 2 then some (1/5) else none

/-- load_config's fallback dict for vibe_as_piston_speed. -/
def defaultVapsSpeed (k : Nat) : Option ℚ :=
  if k = 1 then some (9/10) else if k = 2 then some (2/5) else none

/-- Python dict merge of a default dict with a loaded dict: the loaded
value wins, the default fills the rest. -/
def mergeMap (loaded fallback : Nat → Option ℚ) : Nat → Option ℚ :=
  fun k => match loaded k with
    | some v => some v
    | none => fallback k

/-- load_config on already-parsed data (the happy path of lines 60-96):
every per-mode dict is the default dict updated by the loaded one, every
range end falls back to its literal default, and pose ranges update only
entries present in the current pose table, each end falling back to its
current value. -/
def loadConfig (d : LoadedData) (current : Cfg) : Cfg where
  pistonSpeed := mergeMap d.pistonSpeed defaultPistonSpeed
  pistonPosMin := d.pistonRangeMin.getD 0
  pistonPosMax := d.pistonRangeMax.getD (4/5)
  vibeStrength := mergeMap d.vibeStrength defaultVibeStrength
  vibeMinStrength := mergeMap d.vibeMinStrength defaultVibeMinStrength
  vapsSpeed := mergeMap d.vapsSpeed defaultVapsSpeed
  vapsPosMin := d.vapsRangeMin.getD 0
  vapsPosMax := d.vapsRangeMax.getD (4/5)
  poseRanges := fun id =>
    match current.poseRanges id, d.poseRanges id with
    | some r, some lr => some (lr.1.getD r.1, lr.2.getD r.2)
    | some r, none => some r
    | none, _ => none

/-- A persisted file with every key absent. -/
def emptyLoaded : LoadedData :=
  ⟨fun _ => none, none, none, fun _ => none, fun _ => none, fun _ => none,
   none, none, fun _ => none⟩

/-- The sanity condition the running program always satisfies: each per-mode
dict is defined wherever load_config's default dict is (the dicts start with
exactly those keys and the UI only overwrites existing keys). -/
def cfgDomainOk (c : Cfg) : Prop :=
  (∀ k, c.pistonSpeed k = none → defaultPistonSpeed k = none) ∧
  (∀ k, c.vibeStrength k = none → defaultVibeStrength k = none) ∧
  (∀ k, c.vibeMinStrength k = none → defaultVibeMinStrength k = none) ∧
  (∀ k, c.vapsSpeed k = none → defaultVapsSpeed k = none)

/- ----- concrete instances used by the witnesses ----- -/

/-- The initial VIBE_MIN_STRENGTH_MAP of config.py. -/
def initialVibeMinStrength (k : Nat) : Option ℚ :=
  if k = 1 then some (3/10) else if k = 2 then some (3/5) else none

/-- The initial mutable min_pos/max_pos pairs of config.POSE_PROFILES. -/
def initialPoseRanges (id : ℤ) : Option (ℚ × ℚ) :=
  if id = 1201047697 then some (13/20, 9/10)
  else if id = 1832166380 then some (3/5, 4/5)
  else if id = 7717404 then some (1/5, 3/5)
  else if id = 505962836 then some (3/10, 4/5)
  else if id = 2011001274 then some (0, 1/2)
  else if id = 344055696 then some (0, 2/5)
  else if id = 1945541277 then some (0, 1/2)
  else if id = 1272021522 then some (0, 7/10)
  else if id = 126556443 then some (0, 1/2)
  else if id = 81106989 then some (1/5, 3/5)
  else if id = 1127557836 then some (2/5, 4/5)
  else if id = 1067368937 then some (2/5, 4/5)
  else if id = 37429125 then some (1/10, 3/5)
  else if id = 652955773 then some (1/10, 3/5)
  else if id = 709841502 then some (3/10, 7/10)
  else none

/-- The configuration as config.py initialises it.  The piston_speed,
vibe_strength and vibe_as_piston_speed dicts start with the same values
load_config uses as defaults; vibe_min_strength starts with different ones. -/
def initialCfg : Cfg where
  pistonPosMin := 0
  pistonPosMax := 4/5
  pistonSpeed := defaultPistonSpeed
  vapsPosMin := 0
  vapsPosMax := 4/5
  vibeStrength := defaultVibeStrength
  vibeMinStrength := initialVibeMinStrength
  vapsSpeed := defaultVapsSpeed
  poseRanges := initialPoseRanges

/-- A registry holding one piston-only device at index 0. -/
def devPistonOnly : Nat → Option Caps := fun i => if i = 0 then some ⟨true, false⟩ else none

/-- A registry holding one dual-capability device at index 0. -/
def devDual : Nat → Option Caps := fun i => if i = 0 then some ⟨true, true⟩ else none

/-- A quiescent shared state: modes 0, hash 0, nothing bound. -/
def baseShared : Shared :=
  ⟨0, 0, 0, 0, none, none, fun _ => none, false, false, false, 4⟩

/-- Piston scenario: mode 1, a piston-capable device bound to the piston
signal only, no pose or climax animation. -/
def sharedPiston : Shared :=
  { baseShared with pistonMode := 1, pistonAssign := some 0, devices := devPistonOnly }

/-- The same scenario after the piston mode returns to 0. -/
def sharedPistonOff : Shared := { sharedPiston with pistonMode := 0 }

/-- Piston-emulated-vibe scenario during a climax animation: a piston-only
device bound to the vibe signal, vibe mode 1, animation hash in ClimaxSet
(and not in the pose table). -/
def sharedVapsClimax : Shared :=
  { baseShared with
      vibeMode := 1
      vibeAssign := some 0
      devices := devPistonOnly
      animationHash := 1514068739 }

/-- Piston-emulated-vibe scenario during a pose animation. -/
def sharedVapsPose : Shared :=
  { baseShared with
      vibeMode := 1
      vibeAssign := some 0
      devices := devPistonOnly
      animationHash := 505962836 }

/-- Linked scenario: one dual-capability device bound to both signals,
piston mode 2, vibe mode 1. -/
def sharedLinked : Shared :=
  { baseShared with
      pistonMode := 2
      vibeMode := 1
      pistonAssign := some 0
      vibeAssign := some 0
      devices := devDual }

/-- Climax scenario: hash in ClimaxSet, a piston-capable device bound. -/
def sharedClimax : Shared :=
  { baseShared with
      pistonAssign := some 0
      devices := devPistonOnly
      animationHash := 1514068739 }

/-- Idle scenario: idle motion enabled, no drag, everything quiet, a
piston-capable device bound, wired mode. -/
def sharedIdle : Shared :=
  { baseShared with idleEnabled := true, pistonAssign := some 0, devices := devPistonOnly }

/- ----- conclusion predicates of the bigger claims ----- -/

/-- Conclusion of claim C1 for a cycling run of n passes from the initial
piston state under shared state s, followed by k passes under s0 (the same
state with the mode back at 0): n commands are issued, their positions
follow the strict max/min alternation, every duration is the configured
interval times 1000 ms, and the k mode-0 passes issue exactly one home
command of 0.5 for 700 ms. -/
def C1Concl (cfg : Cfg) (s s0 : Shared) (n k : Nat) : Prop :=
  ((runSteps (pistonStep cfg s) n (pistonInit cfg)).2.length = n) ∧
  (∀ i, i < n →
    ((runSteps (pistonStep cfg s) n (pistonInit cfg)).2.map LinearCmd.position).getD i 0 =
      (if i % 2 = 0 then cfg.pistonPosMax else cfg.pistonPosMin)) ∧
  (∀ i, i + 1 < n →
    ((runSteps (pistonStep cfg s) n (pistonInit cfg)).2.map LinearCmd.position).getD (i + 1) 0 ≠
      ((runSteps (pistonStep cfg s) n (pistonInit cfg)).2.map LinearCmd.position).getD i 0) ∧
  (∀ c ∈ (runSteps (pistonStep cfg s) n (pistonInit cfg)).2,
    (c.durationMs : ℚ) = ((cfg.pistonSpeed s.pistonMode).getD 1) * 1000) ∧
  ((runSteps (pistonStep cfg s0) k (runSteps (pistonStep cfg s) n (pistonInit cfg)).1).2 =
    [⟨1/2, 700⟩])

/-- Conclusion of claim C3 for one linked-mode pass: the output is the
ten-step ramp (plus the closing command at the end strength), the ramp
values are monotone in the direction selected by the wave flag, they stay
between the clamped min strength and the max strength, the sleeps of the
pass sum to exactly one piston cycle interval, the wave flag flips (so the
next ramp runs in the opposite direction), and the piston worker issues no
command whatever its local state. -/
def C3Concl (cfg : Cfg) (s : Shared) (st : VibeSt) : Prop :=
  let pistonInterval := (cfg.pistonSpeed s.pistonMode).getD 1
  let maxStrength := (cfg.vibeStrength s.vibeMode).getD 0
  let minStrength0 := (cfg.vibeMinStrength s.vibeMode).getD 0
  let minStrength := if minStrength0 > maxStrength then maxStrength else minStrength0
  let startStrength := if st.waveHigh then minStrength else maxStrength
  let endStrength := if st.waveHigh then maxStrength else minStrength
  ((vibeStep cfg s st).2 = linkedRampOut pistonInterval startStrength endStrength) ∧
  ((vibeStep cfg s st).2.length = 11) ∧
  (∀ i j, i ≤ j → j ≤ 9 →
    (st.waveHigh = true →
      rampVal startStrength endStrength i ≤ rampVal startStrength endStrength j) ∧
    (st.waveHigh = false →
      rampVal startStrength endStrength j ≤ rampVal startStrength endStrength i)) ∧
  (∀ i, i ≤ 9 →
    minStrength ≤ rampVal startStrength endStrength i ∧
    rampVal startStrength endStrength i ≤ maxStrength) ∧
  (((vibeStep cfg s st).2.map Prod.snd).sum = pistonInterval) ∧
  ((vibeStep cfg s st).1.waveHigh = !st.waveHigh) ∧
  (∀ stp : PistonSt, (pistonStep cfg s stp).2 = none)

/-- Conclusion of claim C9 for one idle pass that issued a command: the
gating conditions all held on that pass, and under wired mode with a
positive interval every commanded position is the sinusoid of wall-clock
time mapped into the piston range. -/
def C9Concl (cfg : Cfg) (s : Shared) (t : ℝ) (st : IdleSt) : Prop :=
  s.idleEnabled = true ∧ s.sliderDragging = false ∧
  s.animationHash ∉ POSE_HASHES ∧ s.animationHash ∉ CLIMAX_HASHES ∧
  s.pistonMode = 0 ∧ s.vibeMode = 0 ∧
  (s.wireless = false → 0 < s.idleInterval →
    ∀ c ∈ (idleStep cfg s t st).2,
      c.position = (cfg.pistonPosMin : ℝ) +
        ((Real.sin (t * (Real.pi / (s.idleInterval : ℝ))) + 1) / 2) *
          ((cfg.pistonPosMax : ℝ) - (cfg.pistonPosMin : ℝ)))

/-- Bounds of every pattern-library function at phase p (and wall-clock
time t for the self-driven constant-frequency pattern). -/
def PatternBounds (p t : ℝ) : Prop :=
  (0 ≤ pattern_1 p ∧ pattern_1 p ≤ 1) ∧
  (0 ≤ pattern_1_inverted p ∧ pattern_1_inverted p ≤ 1) ∧
  (0 ≤ pattern_2 p ∧ pattern_2 p ≤ 1) ∧
  (0 ≤ pattern_3 p ∧ pattern_3 p ≤ 1) ∧
  (0 ≤ pattern_4 p ∧ pattern_4 p ≤ 1) ∧
  (0 ≤ pattern_4_inverted p ∧ pattern_4_inverted p ≤ 1) ∧
  (0 ≤ pattern_5 p ∧ pattern_5 p ≤ 1) ∧
  (0 ≤ pattern_6 p ∧ pattern_6 p ≤ 1) ∧
  (0 ≤ pattern_constant_freq t p ∧ pattern_constant_freq t p ≤ 1)

/-- The guard conditions under which piston_worker's pass reaches its mode
dispatch: no pose or climax animation, a piston-capable device bound to the
piston signal, and that device not also bound to the vibe signal. -/
def pistonGuardOk (s : Shared) (i : Nat) : Prop :=
  s.animationHash ∉ POSE_HASHES ∧ s.animationHash ∉ CLIMAX_HASHES ∧
  s.pistonAssign = some i ∧ (capsOf s i).piston = true ∧ s.vibeAssign ≠ some i

/- ----- theorems ----- -/


lemma pattern_1_mem (p : ℝ) (h0 : 0 ≤ p) (h1 : p < 1) : 0 ≤ pattern_1 p ∧ pattern_1 p ≤ 1 := by
  unfold pattern_1
  split_ifs with ha hb
  · norm_num at ha ⊢; constructor <;> linarith
  · norm_num at ha hb ⊢; constructor <;> linarith
  · norm_num at ha hb ⊢; constructor <;> linarith

lemma pattern_2_mem (p : ℝ) : 0 ≤ pattern_2 p ∧ pattern_2 p ≤ 1 := by
  unfold pattern_2
  have hs1 := Real.neg_one_le_sin (p * 2 * Real.pi - Real.pi / 2)
  have hs2 := Real.sin_le_one (p * 2 * Real.pi - Real.pi / 2)
  constructor <;> linarith

lemma pattern_3_mem (p : ℝ) (h0 : 0 ≤ p) (h1 : p < 1) : 0 ≤ pattern_3 p ∧ pattern_3 p ≤ 1 := by
  unfold pattern_3
  split_ifs with ha
  · norm_num at ha ⊢; constructor <;> linarith
  · norm_num at ha ⊢; constructor <;> linarith

lemma pattern_4_mem (p : ℝ) (h0 : 0 ≤ p) (h1 : p < 1) : 0 ≤ pattern_4 p ∧ pattern_4 p ≤ 1 := by
  unfold pattern_4
  split_ifs with ha
  · norm_num at ha ⊢; constructor <;> linarith
  · norm_num at ha ⊢; constructor <;> linarith

lemma pattern_5_mem (p : ℝ) (h0 : 0 ≤ p) (h1 : p < 1) : 0 ≤ pattern_5 p ∧ pattern_5 p ≤ 1 := by
  unfold pattern_5
  split_ifs with ha
  · norm_num at ha ⊢; constructor <;> linarith
  · norm_num at ha ⊢; constructor <;> linarith

lemma pattern_6_mem (p : ℝ) (h0 : 0 ≤ p) (h1 : p < 1) : 0 ≤ pattern_6 p ∧ pattern_6 p ≤ 1 := by
  unfold pattern_6 easeInQuad easeOutQuad
  split_ifs with ha
  · norm_num at ha ⊢; constructor <;> nlinarith
  · norm_num at ha ⊢; constructor <;> nlinarith

/-- Claim C6: for every pattern function f in the Pattern Library and every
phase in [0,1), f(phase) lies in [0,1] (for the self-driven constant
frequency pattern, at every wall-clock time). -/
theorem c6_pattern_library_range (p t : ℝ) (h0 : 0 ≤ p) (h1 : p < 1) :
    PatternBounds p t := by
  have b1 := pattern_1_mem p h0 h1
  have b2 := pattern_2_mem p
  have b3 := pattern_3_mem p h0 h1
  have b4 := pattern_4_mem p h0 h1
  have b5 := pattern_5_mem p h0 h1
  have b6 := pattern_6_mem p h0 h1
  have bf := pattern_5_mem (Int.fract (t / 0.65)) (Int.fract_nonneg _) (Int.fract_lt_one _)
  refine ⟨b1, ?_, b2, b3, b4, ?_, b5, b6, ?_⟩
  · unfold pattern_1_inverted; constructor <;> linarith [b1.1, b1.2]
  · unfold pattern_4_inverted; constructor <;> linarith [b4.1, b4.2]
  · unfold pattern_constant_freq; exact bf

/-- Witness for C6 at phase 0 and wall-clock time 0. -/
theorem c6_pattern_library_range_witness : PatternBounds 0 0 :=
  c6_pattern_library_range 0 0 (le_refl 0) zero_lt_one

/-- Claim C7: each inverted pattern variant equals one minus its base
pattern at every phase. -/
theorem c7_inverted_patterns (p : ℝ) :
    pattern_1_inverted p = 1 - pattern_1 p ∧ pattern_4_inverted p = 1 - pattern_4 p := by
  unfold pattern_1_inverted pattern_4_inverted
  norm_num

/-- Claim C5: the Pose Loop's smoothing step takes the shorter arc on the
[0,1) torus.  The applied signed distance agrees with the distance the
specification describes, its magnitude never exceeds one half for a target
in [0,1), and in particular for target 0.95 and displayed progress 0.05 the
applied distance is -0.1, so any positive smoothing factor moves the
displayed progress downward (wrapping through 0.0 toward 1.0), not backward
through 0.5. -/
theorem c5_pose_shorter_arc (t d f : ℚ) (ht0 : 0 ≤ t) (ht1 : t < 1) (hf : 0 < f) :
    poseCircularDistance t d = specShorterArcDistance t d ∧
    |poseCircularDistance t d| ≤ 1/2 ∧
    poseCircularDistance (19/20) (1/20) = -(1/10) ∧
    poseSmoothStep (19/20) (1/20) f < 1/20 := by
  have hfr : pyFract d = Int.fract d := rfl
  have hd0 : 0 ≤ pyFract d := by rw [hfr]; exact Int.fract_nonneg d
  have hd1 : pyFract d < 1 := by rw [hfr]; exact Int.fract_lt_one d
  have hconcrete : poseCircularDistance (19/20) (1/20) = -(1/10) := by
    norm_num [poseCircularDistance, pyFract]
  refine ⟨rfl, ?_, hconcrete, ?_⟩
  · simp only [poseCircularDistance]
    split_ifs with h1 h2
    · rw [abs_le]; constructor <;> linarith
    · rw [abs_le]; constructor <;> linarith
    · push_neg at h1 h2; rw [abs_le]; exact ⟨h1, h2⟩
  · unfold poseSmoothStep
    rw [hconcrete]; linarith

/-- Witness for C5 at target 0.95, displayed progress 0.05 and the
transition smoothing factor 0.15. -/
theorem c5_pose_shorter_arc_witness :
    poseCircularDistance (19/20) (1/20) = specShorterArcDistance (19/20) (1/20) ∧
    |poseCircularDistance (19/20) (1/20)| ≤ 1/2 ∧
    poseCircularDistance (19/20) (1/20) = -(1/10) ∧
    poseSmoothStep (19/20) (1/20) (3/20) < 1/20 :=
  c5_pose_shorter_arc (19/20) (1/20) (3/20) (by norm_num) (by norm_num) (by norm_num)

lemma pyInt_intCast (z : ℤ) : pyInt (z : ℚ) = z := by
  unfold pyInt
  split_ifs with h
  · rw [← Int.cast_neg, Int.floor_intCast]; omega
  · rw [Int.floor_intCast]

lemma pistonStep_cycling (cfg : Cfg) (s : Shared) (i : Nat) (hg : pistonGuardOk s i)
    (hm : 0 < s.pistonMode) (st : PistonSt) :
    pistonStep cfg s st = (⟨false, pistonFlip cfg st.target⟩,
      some ⟨st.target, pyInt (((cfg.pistonSpeed s.pistonMode).getD 1) * 1000)⟩) := by
  obtain ⟨h1, h2, h3, h4, h5⟩ := hg
  simp [pistonStep, h1, h2, h3, h4, h5, hm]

lemma pistonStep_homed (cfg : Cfg) (s : Shared) (st : PistonSt)
    (hm : s.pistonMode = 0) (hh : st.isHomed = true) :
    pistonStep cfg s st = (st, none) := by
  cases hA : s.pistonAssign with
  | none => simp [pistonStep, hA]
  | some i => simp [pistonStep, hA, hm, hh]

lemma pistonStep_home_cmd (cfg : Cfg) (s : Shared) (i : Nat) (hg : pistonGuardOk s i)
    (hm : s.pistonMode = 0) (st : PistonSt) (hh : st.isHomed = false) :
    pistonStep cfg s st = (⟨true, cfg.pistonPosMax⟩, some ⟨1/2, 700⟩) := by
  obtain ⟨h1, h2, h3, h4, h5⟩ := hg
  simp [pistonStep, h1, h2, h3, h4, h5, hm, hh]

lemma piston_run_cycling (cfg : Cfg) (s : Shared) (i : Nat) (hg : pistonGuardOk s i)
    (hm : 0 < s.pistonMode) :
    ∀ (n : Nat) (st : PistonSt),
      runSteps (pistonStep cfg s) n st =
        ((if n = 0 then st else ⟨false, flipIter cfg st.target n⟩),
         (List.range n).map (fun j =>
           ⟨flipIter cfg st.target j, pyInt (((cfg.pistonSpeed s.pistonMode).getD 1) * 1000)⟩)) := by
  intro n
  induction n with
  | zero => intro st; simp [runSteps]
  | succ m ih =>
    intro st
    rw [runSteps, pistonStep_cycling cfg s i hg hm st]
    simp only []
    rw [ih ⟨false, pistonFlip cfg st.target⟩]
    refine Prod.ext ?_ ?_
    · cases m with
      | zero => rfl
      | succ m2 => rfl
    · simp only [List.range_succ_eq_map, List.map_cons, List.map_map, Option.toList]
      rfl

lemma piston_run_homed (cfg : Cfg) (s : Shared) (hm : s.pistonMode = 0) :
    ∀ (k : Nat) (st : PistonSt), st.isHomed = true →
      runSteps (pistonStep cfg s) k st = (st, []) := by
  intro k
  induction k with
  | zero => intro st _; rfl
  | succ m ih =>
    intro st hh
    rw [runSteps, pistonStep_homed cfg s st hm hh]
    simp only []
    rw [ih st hh]
    rfl

lemma piston_run_home_once (cfg : Cfg) (s : Shared) (i : Nat) (hg : pistonGuardOk s i)
    (hm : s.pistonMode = 0) (k : Nat) (hk : 0 < k) (st : PistonSt) (hh : st.isHomed = false) :
    (runSteps (pistonStep cfg s) k st).2 = [⟨1/2, 700⟩] := by
  obtain ⟨m, rfl⟩ : ∃ m, k = m + 1 := ⟨k - 1, by omega⟩
  rw [runSteps, pistonStep_home_cmd cfg s i hg hm st hh]
  simp only []
  rw [piston_run_homed cfg s hm m ⟨true, cfg.pistonPosMax⟩ rfl]
  rfl

lemma flipIter_parity (cfg : Cfg) (hne : cfg.pistonPosMin ≠ cfg.pistonPosMax) :
    ∀ i : Nat,
      flipIter cfg cfg.pistonPosMax i =
        (if i % 2 = 0 then cfg.pistonPosMax else cfg.pistonPosMin) ∧
      flipIter cfg cfg.pistonPosMin i =
        (if i % 2 = 0 then cfg.pistonPosMin else cfg.pistonPosMax) := by
  intro i
  induction i with
  | zero => simp [flipIter]
  | succ m ih =>
    have hfmax : pistonFlip cfg cfg.pistonPosMax = cfg.pistonPosMin := by
      rw [pistonFlip, if_pos rfl]
    have hfmin : pistonFlip cfg cfg.pistonPosMin = cfg.pistonPosMax := by
      rw [pistonFlip, if_neg hne]
    constructor
    · show flipIter cfg (pistonFlip cfg cfg.pistonPosMax) m = _
      rw [hfmax, ih.2]
      by_cases hp : m % 2 = 0
      · have h2 : (m + 1) % 2 = 1 := by omega
        simp [hp, h2]
      · have h2 : (m + 1) % 2 = 0 := by omega
        simp [hp, h2]
    · show flipIter cfg (pistonFlip cfg cfg.pistonPosMin) m = _
      rw [hfmin, ih.1]
      by_cases hp : m % 2 = 0
      · have h2 : (m + 1) % 2 = 1 := by omega
        simp [hp, h2]
      · have h2 : (m + 1) % 2 = 0 := by omega
        simp [hp, h2]

lemma getD_range_map {α : Type} (g : Nat → α) (n i : Nat) (a : α) (hi : i < n) :
    ((List.range n).map g).getD i a = g i := by
  rw [List.getD_eq_getElem?_getD, List.getElem?_map, List.getElem?_range hi]
  rfl

/-- Claim C1: with a piston-capable device bound to the piston signal only
and no pose or climax animation, a cycling run under mode m > 0 issues one
command per pass whose positions strictly alternate between the configured
piston_pos_min and piston_pos_max, each with duration equal to the
configured mode-m interval times 1000 ms; once the mode returns to 0, any
positive number of further passes issues exactly one home command to 0.5
with duration 700 ms. -/
theorem c1_piston_cycle_and_home (cfg : Cfg) (s : Shared) (i n k : Nat) (d : ℤ)
    (hg : pistonGuardOk s i) (hm : 0 < s.pistonMode)
    (hne : cfg.pistonPosMin ≠ cfg.pistonPosMax)
    (hd : ((cfg.pistonSpeed s.pistonMode).getD 1) * 1000 = (d : ℚ))
    (hn : 0 < n) (hk : 0 < k) :
    C1Concl cfg s { s with pistonMode := 0 } n k := by
  have hrun := piston_run_cycling cfg s i hg hm n (pistonInit cfg)
  have hg0 : pistonGuardOk { s with pistonMode := 0 } i := by
    obtain ⟨a, b, c, d2, e⟩ := hg
    exact ⟨a, b, c, d2, e⟩
  unfold C1Concl
  rw [hrun]
  refine ⟨?_, ?_, ?_, ?_, ?_⟩
  · simp
  · intro j hj
    rw [List.map_map, getD_range_map _ n j _ hj]
    exact (flipIter_parity cfg hne j).1
  · intro j hj
    rw [List.map_map, getD_range_map _ n (j + 1) _ hj,
      getD_range_map _ n j _ (by omega)]
    have p1 := (flipIter_parity cfg hne j).1
    have p2 := (flipIter_parity cfg hne (j + 1)).1
    show flipIter cfg cfg.pistonPosMax (j + 1) ≠ flipIter cfg cfg.pistonPosMax j
    rw [p1, p2]
    by_cases hp : j % 2 = 0
    · have h2 : (j + 1) % 2 = 1 := by omega
      simp [hp, h2]
      exact hne
    · have h2 : (j + 1) % 2 = 0 := by omega
      simp [hp, h2]
      exact fun hq => hne hq.symm
  · intro c hc
    rw [List.mem_map] at hc
    obtain ⟨j, _, rfl⟩ := hc
    show ((pyInt (((cfg.pistonSpeed s.pistonMode).getD 1) * 1000) : ℤ) : ℚ) = _
    rw [hd, pyInt_intCast]
  · rw [if_neg (by omega : ¬ n = 0)]
    exact piston_run_home_once cfg { s with pistonMode := 0 } i hg0 rfl k hk
      ⟨false, flipIter cfg (pistonInit cfg).target n⟩ rfl

/-- Witness for C1: the default configuration, mode 1 (interval 0.9 s, so
900 ms commands), three cycling passes then two mode-0 passes. -/
theorem c1_piston_cycle_and_home_witness :
    C1Concl initialCfg sharedPiston sharedPistonOff 3 2 :=
  c1_piston_cycle_and_home initialCfg sharedPiston 0 3 2 900
    (by refine ⟨?_, ?_, rfl, rfl, ?_⟩ <;> decide)
    (by decide)
    (show (0 : ℚ) ≠ 4/5 by norm_num)
    (show (defaultPistonSpeed 1).getD 1 * 1000 = ((900 : ℤ) : ℚ) by
      norm_num [defaultPistonSpeed])
    (by decide) (by decide)

lemma rhe_intCast (z : ℤ) : rhe (z : ℚ) = z := by
  simp only [rhe, Int.floor_intCast, sub_self]
  norm_num

lemma rhe_mono {x y : ℚ} (h : x ≤ y) : rhe x ≤ rhe y := by
  simp only [rhe]
  have hf : ⌊x⌋ ≤ ⌊y⌋ := Int.floor_le_floor h
  rcases eq_or_lt_of_le hf with heq | hlt
  · rw [← heq]
    have hxy : x - (⌊x⌋ : ℚ) ≤ y - (⌊x⌋ : ℚ) := by linarith
    split_ifs <;> first
      | omega
      | (exfalso; linarith)
  · have hq : (⌊x⌋ : ℚ) + 1 ≤ (⌊y⌋ : ℚ) := by exact_mod_cast hlt
    split_ifs <;> omega

lemma round2_mono {x y : ℚ} (h : x ≤ y) : round2 x ≤ round2 y := by
  unfold round2
  have h2 : rhe (100 * x) ≤ rhe (100 * y) := rhe_mono (by linarith)
  have h3 : ((rhe (100 * x) : ℤ) : ℚ) ≤ ((rhe (100 * y) : ℤ) : ℚ) := by exact_mod_cast h2
  gcongr

lemma round2_twoDec {q : ℚ} (h : TwoDec q) : round2 q = q := by
  obtain ⟨z, rfl⟩ := h
  unfold round2
  rw [show (100 : ℚ) * ((z : ℚ) / 100) = (z : ℚ) by ring, rhe_intCast]

lemma rampVal_mono_up {a b : ℚ} (hab : a ≤ b) {i j : Nat} (hij : i ≤ j) :
    rampVal a b i ≤ rampVal a b j := by
  unfold rampVal
  apply round2_mono
  have h9 : ((i : ℚ) / 9) ≤ ((j : ℚ) / 9) := by
    gcongr
  have := mul_le_mul_of_nonneg_left h9 (sub_nonneg.mpr hab)
  linarith

lemma rampVal_anti {a b : ℚ} (hba : b ≤ a) {i j : Nat} (hij : i ≤ j) :
    rampVal a b j ≤ rampVal a b i := by
  unfold rampVal
  apply round2_mono
  have h9 : ((i : ℚ) / 9) ≤ ((j : ℚ) / 9) := by
    gcongr
  have := mul_le_mul_of_nonpos_left h9 (sub_nonpos.mpr hba)
  linarith

lemma rampVal_zero (a b : ℚ) (h : TwoDec a) : rampVal a b 0 = a := by
  have e : a + (b - a) * (((0 : Nat) : ℚ) / 9) = a := by norm_num
  unfold rampVal
  rw [e]
  exact round2_twoDec h

lemma rampVal_nine (a b : ℚ) (h : TwoDec b) : rampVal a b 9 = b := by
  have e : a + (b - a) * (((9 : Nat) : ℚ) / 9) = b := by push_cast; ring
  unfold rampVal
  rw [e]
  exact round2_twoDec h

lemma rampVal_between {a b : ℚ} (hab : a ≤ b) (h2a : TwoDec a) (h2b : TwoDec b)
    {i : Nat} (hi : i ≤ 9) : a ≤ rampVal a b i ∧ rampVal a b i ≤ b :=
  ⟨((rampVal_zero a b h2a).symm.le).trans (rampVal_mono_up hab (Nat.zero_le i)),
   (rampVal_mono_up hab hi).trans (rampVal_nine a b h2b).le⟩

lemma rampVal_between_anti {a b : ℚ} (hba : b ≤ a) (h2a : TwoDec a) (h2b : TwoDec b)
    {i : Nat} (hi : i ≤ 9) : b ≤ rampVal a b i ∧ rampVal a b i ≤ a :=
  ⟨((rampVal_nine a b h2b).symm.le).trans (rampVal_anti hba hi),
   (rampVal_anti hba (Nat.zero_le i)).trans (rampVal_zero a b h2a).le⟩

lemma sum_map_const_rat {α : Type} (l : List α) (c : ℚ) :
    (l.map (fun _ => c)).sum = l.length * c := by
  induction l with
  | nil => simp
  | cons x xs ih =>
    simp [ih]
    ring

lemma linkedRampOut_sleep_sum (p a b : ℚ) :
    ((linkedRampOut p a b).map Prod.snd).sum = p := by
  rw [linkedRampOut, List.map_append, List.map_map]
  rw [show (Prod.snd ∘ fun i => (VCmd.vibrate (rampVal a b i), p / 10)) = (fun _ => p / 10)
    from rfl]
  rw [List.sum_append, sum_map_const_rat]
  simp
  ring

lemma vibeStep_linked (cfg : Cfg) (s : Shared) (st : VibeSt) (vIdx : Nat) (caps : Caps)
    (hv : s.vibeAssign = some vIdx) (hdev : s.devices vIdx = some caps)
    (hvc : caps.vibe = true) (hp : s.pistonAssign = some vIdx)
    (hpm : 0 < s.pistonMode) (hvm : 0 < s.vibeMode) :
    vibeStep cfg s st = ({ st with isHomed := true, waveHigh := !st.waveHigh },
      linkedRampOut ((cfg.pistonSpeed s.pistonMode).getD 1)
        (if st.waveHigh then
           (if (cfg.vibeMinStrength s.vibeMode).getD 0 > (cfg.vibeStrength s.vibeMode).getD 0
            then (cfg.vibeStrength s.vibeMode).getD 0
            else (cfg.vibeMinStrength s.vibeMode).getD 0)
         else (cfg.vibeStrength s.vibeMode).getD 0)
        (if st.waveHigh then (cfg.vibeStrength s.vibeMode).getD 0
         else
           (if (cfg.vibeMinStrength s.vibeMode).getD 0 > (cfg.vibeStrength s.vibeMode).getD 0
            then (cfg.vibeStrength s.vibeMode).getD 0
            else (cfg.vibeMinStrength s.vibeMode).getD 0))) := by
  simp [vibeStep, hv, hdev, hvc, hp, hpm, hvm]

lemma pistonStep_standdown_linked (cfg : Cfg) (s : Shared) (vIdx : Nat)
    (hp : s.pistonAssign = some vIdx) (hv : s.vibeAssign = some vIdx) (stp : PistonSt) :
    (pistonStep cfg s stp).2 = none := by
  simp only [pistonStep, hp, hv]
  split_ifs <;> rfl

/-- Claim C3: in linked mode with both modes positive, the Vibe Loop emits a
ramp of ten strengths over one piston cycle interval, monotone in the
direction selected by the wave flag and bounded between the clamped min
strength and the max strength; the wave flag flips each pass so consecutive
ramps alternate direction, and the Piston Loop stands down for the co-bound
device. -/
theorem c3_linked_ramp (cfg : Cfg) (s : Shared) (st : VibeSt) (vIdx : Nat) (caps : Caps)
    (hv : s.vibeAssign = some vIdx) (hdev : s.devices vIdx = some caps)
    (hvc : caps.vibe = true) (hp : s.pistonAssign = some vIdx)
    (hpm : 0 < s.pistonMode) (hvm : 0 < s.vibeMode)
    (h2max : TwoDec ((cfg.vibeStrength s.vibeMode).getD 0))
    (h2min : TwoDec ((cfg.vibeMinStrength s.vibeMode).getD 0)) :
    C3Concl cfg s st := by
  have hstep := vibeStep_linked cfg s st vIdx caps hv hdev hvc hp hpm hvm
  have hminle :
      (if (cfg.vibeMinStrength s.vibeMode).getD 0 > (cfg.vibeStrength s.vibeMode).getD 0
       then (cfg.vibeStrength s.vibeMode).getD 0
       else (cfg.vibeMinStrength s.vibeMode).getD 0) ≤ (cfg.vibeStrength s.vibeMode).getD 0 := by
    split_ifs with h
    · exact le_refl _
    · linarith [not_lt.mp h]
  have h2minS :
      TwoDec (if (cfg.vibeMinStrength s.vibeMode).getD 0 > (cfg.vibeStrength s.vibeMode).getD 0
              then (cfg.vibeStrength s.vibeMode).getD 0
              else (cfg.vibeMinStrength s.vibeMode).getD 0) := by
    split_ifs
    · exact h2max
    · exact h2min
  dsimp only [C3Concl]
  cases hwb : st.waveHigh with
  | true =>
    rw [hwb] at hstep
    refine ⟨?_, ?_, ?_, ?_, ?_, ?_, ?_⟩
    · rw [hstep]
    · rw [hstep]
      simp [linkedRampOut]
    · intro i j hij hj
      exact ⟨fun _ => rampVal_mono_up hminle hij, fun hfalse => nomatch hfalse⟩
    · intro i hi
      exact rampVal_between hminle h2minS h2max hi
    · rw [hstep]
      exact linkedRampOut_sleep_sum _ _ _
    · rw [hstep]
    · intro stp
      exact pistonStep_standdown_linked cfg s vIdx hp hv stp
  | false =>
    rw [hwb] at hstep
    refine ⟨?_, ?_, ?_, ?_, ?_, ?_, ?_⟩
    · rw [hstep]
    · rw [hstep]
      simp [linkedRampOut]
    · intro i j hij hj
      exact ⟨fun htrue => (nomatch htrue), fun _ => rampVal_anti hminle hij⟩
    · intro i hi
      exact rampVal_between_anti hminle h2max h2minS hi
    · rw [hstep]
      exact linkedRampOut_sleep_sum _ _ _
    · rw [hstep]
    · intro stp
      exact pistonStep_standdown_linked cfg s vIdx hp hv stp

/-- Witness for C3: the default configuration, one dual-capability device
bound to both signals, piston mode 2, vibe mode 1, first pass (rising
ramp). -/
theorem c3_linked_ramp_witness : C3Concl initialCfg sharedLinked vibeInit :=
  c3_linked_ramp initialCfg sharedLinked vibeInit 0 ⟨true, true⟩ rfl rfl rfl rfl
    (by decide) (by decide)
    ⟨50, by norm_num [initialCfg, defaultVibeStrength, sharedLinked, baseShared]⟩
    ⟨30, by norm_num [initialCfg, initialVibeMinStrength, sharedLinked, baseShared]⟩

/-- Counterexample to claim C2 as stated: in piston-emulated-vibe mode with
an animation hash that is in the ClimaxSet (and not in the pose table), the
pass still issues an actuator command instead of standing down — the branch
only consults the pose table. -/
theorem c2_counterexample :
    sharedVapsClimax.animationHash ∈ CLIMAX_HASHES ∧
    sharedVapsClimax.animationHash ∉ POSE_HASHES ∧
    (vibeStep initialCfg sharedVapsClimax vibeInit).2 ≠ [] := by
  refine ⟨by decide, by decide, ?_⟩
  norm_num [vibeStep, sharedVapsClimax, baseShared, devPistonOnly, vibeInit, POSE_HASHES]

/-- Claim C2 as amended: in piston-emulated-vibe mode the pass stands down
(no actuator command, local state unchanged) whenever the current animation
hash is in the PoseProfile table; membership in the ClimaxSet is not
consulted by this sub-mode. -/
theorem c2_piston_emulated_standdown (cfg : Cfg) (s : Shared) (st : VibeSt)
    (vIdx : Nat) (caps : Caps)
    (hv : s.vibeAssign = some vIdx) (hdev : s.devices vIdx = some caps)
    (hpiston : caps.piston = true) (hvibe : caps.vibe = false)
    (hpose : s.animationHash ∈ POSE_HASHES) :
    vibeStep cfg s st = (st, []) := by
  simp [vibeStep, hv, hdev, hpiston, hvibe, hpose]

/-- Witness for the amended C2: a piston-only device bound to the vibe
signal while the Masturbate pose animation is active. -/
theorem c2_piston_emulated_standdown_witness :
    vibeStep initialCfg sharedVapsPose vibeInit = (vibeInit, []) :=
  c2_piston_emulated_standdown initialCfg sharedVapsPose vibeInit 0 ⟨true, false⟩
    rfl rfl rfl rfl (by decide)

lemma climaxTick_module_flag (s : Shared) (g lastFrame : Bool) :
    (climaxTick s g lastFrame).1 = g := by
  simp only [climaxTick]
  split_ifs <;> rfl

lemma climaxRun_module_flag :
    ∀ (inputs : List Shared) (g lastFrame : Bool), (climaxRun inputs g lastFrame).1 = g := by
  intro inputs
  induction inputs with
  | nil => intro g lf; rfl
  | cons u us ih =>
    intro g lf
    simp only [climaxRun]
    rw [ih, climaxTick_module_flag]

lemma climaxRun_steady (g : Bool) :
    ∀ (rest : List Shared), (∀ u ∈ rest, u.animationHash ∈ CLIMAX_HASHES) →
      (climaxRun rest g true).2.2 = rest.map (fun _ => ([] : List LinearCmd)) := by
  intro rest
  induction rest with
  | nil => intro _; rfl
  | cons u us ih =>
    intro hall
    have hu : u.animationHash ∈ CLIMAX_HASHES := hall u (List.mem_cons_self u us)
    have hd : decide (u.animationHash ∈ CLIMAX_HASHES) = true := decide_eq_true hu
    have htick : climaxTick u g true = (g, true, []) := by
      simp [climaxTick, hd]
    simp only [climaxRun]
    rw [htick]
    dsimp only
    rw [ih (fun v hv => hall v (List.mem_cons_of_mem u hv))]
    rfl

/-- Claim C4: the climax sequence is edge triggered.  For a run whose every
polled state has the animation hash inside the ClimaxSet, starting from the
not-yet-triggered local flag, the first pass plays the full choreographed
sequence and every subsequent pass of the run emits nothing. -/
theorem c4_climax_edge (s : Shared) (rest : List Shared) (g : Bool)
    (hs : s.animationHash ∈ CLIMAX_HASHES) (hact : (resolveActuator s).isSome = true)
    (hrest : ∀ u ∈ rest, u.animationHash ∈ CLIMAX_HASHES) :
    (climaxRun (s :: rest) g false).2.2 =
      climaxSeq s.wireless :: rest.map (fun _ => ([] : List LinearCmd)) := by
  have hd : decide (s.animationHash ∈ CLIMAX_HASHES) = true := decide_eq_true hs
  have htick : climaxTick s g false = (g, true, climaxSeq s.wireless) := by
    simp [climaxTick, hd, hact]
  simp only [climaxRun]
  rw [htick]
  dsimp only
  rw [climaxRun_steady g rest hrest]

/-- Witness for C4: three consecutive passes inside a climax animation with
a piston-capable device bound play the sequence exactly once. -/
theorem c4_climax_edge_witness :
    (climaxRun [sharedClimax, sharedClimax, sharedClimax] false false).2.2 =
      climaxSeq sharedClimax.wireless ::
        [sharedClimax, sharedClimax].map (fun _ => ([] : List LinearCmd)) :=
  c4_climax_edge sharedClimax [sharedClimax, sharedClimax] false (by decide) (by decide)
    (by
      intro u hu
      simp only [List.mem_cons, List.not_mem_nil, or_false] at hu
      rcases hu with rfl | rfl <;> decide)

/-- Claim C10: the module-level post-climax cooldown flag is never set in
any reachable state.  One pass leaves the module flag unchanged whatever the
inputs (the falling-edge branch's assignments bind a function-local name),
the local writes of a pass are at most the transient True-then-False pair,
and along every run started with the flag False it stays False. -/
theorem c10_cooldown_never_true :
    (∀ (s : Shared) (g lastFrame : Bool), (climaxTick s g lastFrame).1 = g) ∧
    (∀ (s : Shared) (lastFrame : Bool),
      climaxTickLocalWrites s lastFrame = [true, false] ∨
      climaxTickLocalWrites s lastFrame = []) ∧
    (∀ (inputs : List Shared) (lastFrame : Bool),
      (climaxRun inputs false lastFrame).1 = false) := by
  refine ⟨climaxTick_module_flag, ?_, ?_⟩
  · intro s lastFrame
    unfold climaxTickLocalWrites
    split_ifs
    · exact Or.inl rfl
    · exact Or.inr rfl
  · intro inputs lastFrame
    exact climaxRun_module_flag inputs false lastFrame

/-- Claim C9: the Idle Loop issues a command on a pass only when the feature
is enabled, no slider drag is in progress and none of pose-active,
climax-active, piston mode positive, vibe mode positive hold; and under
wired mode with a positive interval the commanded position is the sinusoid
of wall-clock time mapped into the piston range. -/
theorem c9_idle_guard_and_sinusoid (cfg : Cfg) (s : Shared) (t : ℝ) (st : IdleSt)
    (hcmd : (idleStep cfg s t st).2 ≠ []) : C9Concl cfg s t st := by
  have hdrag : s.sliderDragging = false := by
    cases hb : s.sliderDragging
    · rfl
    · exfalso; apply hcmd; unfold idleStep; rw [if_pos hb]
  have henabled : s.idleEnabled = true := by
    cases hb : s.idleEnabled
    · exfalso; apply hcmd; unfold idleStep
      rw [if_neg (by simp [hdrag]), if_pos hb]
    · rfl
  have h3 : ¬(s.animationHash ∈ POSE_HASHES ∨ s.animationHash ∈ CLIMAX_HASHES
      ∨ 0 < s.pistonMode ∨ 0 < s.vibeMode) := by
    intro hor
    apply hcmd; unfold idleStep
    rw [if_neg (by simp [hdrag]), if_neg (by simp [henabled]), if_pos hor]
  have hact : (resolveActuator s).isSome = true := by
    cases hb : (resolveActuator s).isSome
    · exfalso; apply hcmd; unfold idleStep
      rw [if_neg (by simp [hdrag]), if_neg (by simp [henabled]), if_neg h3, if_pos hb]
    · rfl
  push_neg at h3
  obtain ⟨hpose, hclimax, hpm, hvm⟩ := h3
  refine ⟨henabled, hdrag, hpose, hclimax, by omega, by omega, ?_⟩
  intro hw hpos c hc
  unfold idleStep at hc
  rw [if_neg (by simp [hdrag]), if_neg (by simp [henabled]),
      if_neg (by push_neg; exact ⟨hpose, hclimax, hpm, hvm⟩),
      if_neg (by simp [hact]), if_neg (by simp [hw])] at hc
  simp only [if_pos hpos] at hc
  by_cases hwi : st.wasIdling = false
  · simp only [if_pos hwi, List.mem_cons, List.not_mem_nil, or_false] at hc
    rcases hc with rfl | rfl <;> rfl
  · simp only [if_neg hwi, List.mem_cons, List.not_mem_nil, or_false] at hc
    rcases hc with rfl
    rfl

/-- Witness for C9: enabled idle motion, quiet modes, a piston-capable
device bound, wired mode, at wall-clock time 0. -/
theorem c9_idle_guard_and_sinusoid_witness : C9Concl initialCfg sharedIdle 0 idleInit :=
  c9_idle_guard_and_sinusoid initialCfg sharedIdle 0 idleInit
    (by
      unfold idleStep
      norm_num [sharedIdle, baseShared, devPistonOnly, idleInit, resolveActuator,
        capsOf, POSE_HASHES, CLIMAX_HASHES]
      exact List.cons_ne_nil _ _)

lemma loadConfig_saveData (c : Cfg) (hdom : cfgDomainOk c) : loadConfig (saveData c) c = c := by
  obtain ⟨h1, h2, h3, h4⟩ := hdom
  have ep : mergeMap (saveData c).pistonSpeed defaultPistonSpeed = c.pistonSpeed := by
    funext k
    simp only [mergeMap, saveData]
    cases hk : c.pistonSpeed k with
    | some v => rfl
    | none => exact h1 k hk
  have ev : mergeMap (saveData c).vibeStrength defaultVibeStrength = c.vibeStrength := by
    funext k
    simp only [mergeMap, saveData]
    cases hk : c.vibeStrength k with
    | some v => rfl
    | none => exact h2 k hk
  have evm : mergeMap (saveData c).vibeMinStrength defaultVibeMinStrength
      = c.vibeMinStrength := by
    funext k
    simp only [mergeMap, saveData]
    cases hk : c.vibeMinStrength k with
    | some v => rfl
    | none => exact h3 k hk
  have evs : mergeMap (saveData c).vapsSpeed defaultVapsSpeed = c.vapsSpeed := by
    funext k
    simp only [mergeMap, saveData]
    cases hk : c.vapsSpeed k with
    | some v => rfl
    | none => exact h4 k hk
  have epr : (loadConfig (saveData c) c).poseRanges = c.poseRanges := by
    funext id
    simp only [loadConfig, saveData]
    cases hid : c.poseRanges id with
    | some r => simp
    | none => simp
  ext1
  · simp [loadConfig, saveData]
  · simp [loadConfig, saveData]
  · exact ep
  · simp [loadConfig, saveData]
  · simp [loadConfig, saveData]
  · exact ev
  · exact evm
  · exact evs
  · exact epr

/-- Claim C8: saving the configuration and loading it back restores every
per-mode entry, both position ranges and every pose min/max override; and
for any key absent from a loaded file, loading falls back to the default
value (the literal defaults for ranges, the default dicts for per-mode
entries, the current table values for pose ranges). -/
theorem c8_config_roundtrip :
    (∀ c : Cfg, cfgDomainOk c → loadConfig (saveData c) c = c) ∧
    (∀ (d : LoadedData) (c : Cfg) (k : Nat), d.pistonSpeed k = none →
      (loadConfig d c).pistonSpeed k = defaultPistonSpeed k) ∧
    (∀ (d : LoadedData) (c : Cfg) (k : Nat), d.vibeStrength k = none →
      (loadConfig d c).vibeStrength k = defaultVibeStrength k) ∧
    (∀ (d : LoadedData) (c : Cfg) (k : Nat), d.vibeMinStrength k = none →
      (loadConfig d c).vibeMinStrength k = defaultVibeMinStrength k) ∧
    (∀ (d : LoadedData) (c : Cfg) (k : Nat), d.vapsSpeed k = none →
      (loadConfig d c).vapsSpeed k = defaultVapsSpeed k) ∧
    (∀ (d : LoadedData) (c : Cfg), d.pistonRangeMin = none →
      (loadConfig d c).pistonPosMin = 0) ∧
    (∀ (d : LoadedData) (c : Cfg), d.pistonRangeMax = none →
      (loadConfig d c).pistonPosMax = 4/5) ∧
    (∀ (d : LoadedData) (c : Cfg), d.vapsRangeMin = none →
      (loadConfig d c).vapsPosMin = 0) ∧
    (∀ (d : LoadedData) (c : Cfg), d.vapsRangeMax = none →
      (loadConfig d c).vapsPosMax = 4/5) ∧
    (∀ (d : LoadedData) (c : Cfg) (id : ℤ) (r : ℚ × ℚ), d.poseRanges id = none →
      c.poseRanges id = some r → (loadConfig d c).poseRanges id = some r) := by
  refine ⟨loadConfig_saveData, ?_, ?_, ?_, ?_, ?_, ?_, ?_, ?_, ?_⟩
  · intro d c k hk; simp [loadConfig, mergeMap, hk]
  · intro d c k hk; simp [loadConfig, mergeMap, hk]
  · intro d c k hk; simp [loadConfig, mergeMap, hk]
  · intro d c k hk; simp [loadConfig, mergeMap, hk]
  · intro d c hk; simp [loadConfig, hk]
  · intro d c hk; simp [loadConfig, hk]
  · intro d c hk; simp [loadConfig, hk]
  · intro d c hk; simp [loadConfig, hk]
  · intro d c id r hnone hcur; simp [loadConfig, hnone, hcur]

/-- Witness for C8: the round trip at the initial configuration of
config.py. -/
theorem c8_config_roundtrip_witness :
    loadConfig (saveData initialCfg) initialCfg = initialCfg :=
  c8_config_roundtrip.1 initialCfg
    ⟨fun _ hk => hk, fun _ hk => hk,
     fun k hk => by
       unfold initialCfg initialVibeMinStrength at hk
       unfold defaultVibeMinStrength
       split_ifs at hk ⊢ <;> simp_all,
     fun _ hk => hk⟩
